import Mathlib

/-
  Verification of the dplasma4dare reduction-tree resolver specification and of
  the argument-validation wrapper routines.

  Part 1 models the reduction-tree resolver (TreeDescriptor, pivotOf, nextPeer,
  prevPeer, kernelKind).  The resolver's own source is not part of the available
  sources (only its caller dplasma_hqr_init appears, in
  tests/testing_zunmlq_hqr.c), so the resolver is modelled from the spec.

  Part 2 embeds the argument-validation wrappers from src/ (zheev_wrapper.c,
  zlansy_wrapper.c, zlantr_wrapper.c, map_wrapper.c, and the zgesv driver).
-/

/-- Modelled from the spec: the four reduction-tree shapes recognized by the
resolver (spec section 3, `localKind`/`globalKind` enumeration). -/
inductive TreeKind where
  | FLAT
  | BINARY
  | GREEDY
  | FIBONACCI
deriving DecidableEq, Repr

/-- Modelled from the spec: the immutable `TreeDescriptor` configuration object
(spec section 3).  The domain grid is collapsed to the tile-row dimension which
is the only one the reduction queries consult. -/
structure TreeDescriptor where
  rows : Nat
  cols : Nat
  localKind : TreeKind
  globalKind : TreeKind
  localSize : Nat
  domino : Bool
  roundRobin : Bool
deriving DecidableEq, Repr

/-- Modelled from the spec: the `TreeDescriptor` invariant of spec section 3:
`rows >= 1`, `localSize >= 1`, and `domino` requires a FLAT or BINARY global
tree. -/
def TreeDescriptor.Valid (td : TreeDescriptor) : Prop :=
  1 ≤ td.rows ∧ 1 ≤ td.localSize ∧
    (td.domino = true → td.globalKind = TreeKind.FLAT ∨ td.globalKind = TreeKind.BINARY)

instance (td : TreeDescriptor) : Decidable td.Valid := by
  unfold TreeDescriptor.Valid; infer_instance

/-- Largest power of two dividing `n` (fuel-indexed so that it reduces in the
kernel); `lowBit 0 = 0`. -/
def lowBitAux : Nat → Nat → Nat
  | 0, _ => 0
  | fuel + 1, n =>
    if n = 0 then 0
    else if n % 2 = 1 then 1
    else 2 * lowBitAux fuel (n / 2)

/-- Largest power of two dividing `n`; `lowBit 0 = 0`. -/
def lowBit (n : Nat) : Nat := lowBitAux n n

/-- Modelled from the spec: GREEDY local-tree pivot (spec section 4.2), the
classic recursive-halving reduction: with `t` surviving rows `0..t-1`, the top
`t - ceil(t/2)` rows are eliminated into the bottom rows at distance
`ceil(t/2)`, and the surviving bottom half recurses. -/
def greedyPivotAux : Nat → Nat → Nat → Nat
  | 0, _, _ => 0
  | fuel + 1, t, j =>
    if t ≤ 1 then 0
    else
      let half := (t + 1) / 2
      if j < half then greedyPivotAux fuel half j
      else j - half

/-- Modelled from the spec: GREEDY pivot of relative row `j` in a domain of
`size` rows. -/
def greedyPivot (size j : Nat) : Nat := greedyPivotAux size size j

/-- Fibonacci numbers used for the FIBONACCI tree blocks (1, 1, 2, 3, 5, ...). -/
def fibNum : Nat → Nat
  | 0 => 1
  | 1 => 1
  | n + 2 => fibNum n + fibNum (n + 1)

/-- Modelled from the spec: FIBONACCI local-tree pivot (spec section 4.2):
non-root rows are grouped in consecutive blocks whose sizes grow by Fibonacci
steps; block members reduce flat into the block leader, leaders reduce into the
root. -/
def fibPivotAux : Nat → Nat → Nat → Nat → Nat
  | 0, _, _, _ => 0
  | fuel + 1, start, g, j =>
    if j < start + fibNum g then
      if j = start then 0 else start
    else fibPivotAux fuel (start + fibNum g) (g + 1) j

/-- Modelled from the spec: FIBONACCI pivot of relative row `j ≥ 1`. -/
def fibPivot (j : Nat) : Nat := fibPivotAux j 1 0 j

/-- Modelled from the spec: the pivot of relative index `j ≥ 1` in a reduction
tree of the given kind over indices `0..size-1` (spec sections 4.2 and 4.3; the
same four shapes serve as local and as global trees). -/
def treePivot : TreeKind → Nat → Nat → Nat
  | TreeKind.FLAT, _, _ => 0
  | TreeKind.BINARY, _, j => j - lowBit j
  | TreeKind.GREEDY, size, j => greedyPivot size j
  | TreeKind.FIBONACCI, _, j => fibPivot j

/-- Modelled from the spec: the largest tile index participating in step `k`
(spec section 4.4, "the tree's extent for that step"). -/
def extent (td : TreeDescriptor) (_k : Nat) : Nat := td.rows - 1

/-- Modelled from the spec: number of tile-rows of domain `d` at step `k`
(the last domain may be smaller than `localSize`). -/
def domSize (td : TreeDescriptor) (k d : Nat) : Nat :=
  min td.localSize (td.rows - k - d * td.localSize)

/-- Modelled from the spec: number of domains at step `k`. -/
def numDomains (td : TreeDescriptor) (k : Nat) : Nat :=
  (td.rows - k + td.localSize - 1) / td.localSize

/-- Modelled from the spec: `pivotOf(step k, tile m)` (spec section 4.4): the
unique tile `m` is eliminated into at step `k`; `none` (OutOfRangeError) if
`m ≤ k` or `m` exceeds the step's extent.  Tile `m` has relative index
`r = m - k`; within domain `d = r / localSize` a non-root row (`r % localSize ≠ 0`)
is eliminated by the local tree, and a domain root (`r % localSize = 0`) is
eliminated by the global tree over domain indices. -/
def pivotOf (td : TreeDescriptor) (k m : Nat) : Option Nat :=
  if m ≤ k ∨ td.rows ≤ m then none
  else
    let L := td.localSize
    let r := m - k
    let d := r / L
    let j := r % L
    if j ≠ 0 then some (k + d * L + treePivot td.localKind (domSize td k d) j)
    else some (k + treePivot td.globalKind (numDomains td k) d * L)

/-- Iterate `pivotOf` a given number of hops from tile `m`. -/
def pivotIter (td : TreeDescriptor) (k : Nat) : Nat → Nat → Option Nat
  | 0, m => some m
  | n + 1, m =>
    match pivotOf td k m with
    | none => none
    | some p => pivotIter td k n p

/-- Number of `pivotOf` hops from `m` down to the root `k` (fuel-indexed). -/
def hopCount (td : TreeDescriptor) (k : Nat) : Nat → Nat → Option Nat
  | 0, m => if m = k then some 0 else none
  | fuel + 1, m =>
    if m = k then some 0
    else
      match pivotOf td k m with
      | none => none
      | some p => (hopCount td k fuel p).map (· + 1)

/-- Maximum hop count over all tiles of step `k`. -/
def maxHops (td : TreeDescriptor) (k : Nat) : Nat :=
  ((List.range td.rows).filter (fun m => decide (k < m))).foldr
    (fun m acc => max ((hopCount td k td.rows m).getD 0) acc) 0

/-- Modelled from the spec: the fixed deterministic traversal order of the
tiles reducing into pivot `p` at step `k` (spec section 4.4): increasing tile
index. -/
def peers (td : TreeDescriptor) (k p : Nat) : List Nat :=
  (List.range td.rows).filter (fun m => decide (pivotOf td k m = some p))

/-- Modelled from the spec: `nextPeer(step k, tile p, tile after)` (spec
section 4.4): next tile in the deterministic traversal order that targets
pivot `p`, scanning strictly after `after`; `none` when no further tile
exists. -/
def nextPeer (td : TreeDescriptor) (k p : Nat) (after : Nat) : Option Nat :=
  (peers td k p).find? (fun m => decide (after < m))

/-- Cursor predicate of the backward traversal: `none` (NONE) admits every
tile, `some b` admits tiles strictly before `b`. -/
def belowPred (c : Option Nat) (x : Nat) : Bool :=
  match c with
  | none => true
  | some b => decide (x < b)

/-- Modelled from the spec: `prevPeer(step k, tile p, tile before)` (spec
section 4.4): inverse traversal of `nextPeer` — the last peer strictly before
`before`, where `before = none` (NONE) starts from the end. -/
def prevPeer (td : TreeDescriptor) (k p : Nat) (before : Option Nat) : Option Nat :=
  (peers td k p).reverse.find? (belowPred before)

/-- Exhaustive iteration of a forward cursor query. -/
def iterUp (f : Nat → Option Nat) : Nat → Nat → List Nat
  | 0, _ => []
  | fuel + 1, a =>
    match f a with
    | none => []
    | some m => m :: iterUp f fuel m

/-- Exhaustive iteration of a backward cursor query starting from NONE. -/
def iterDown (f : Option Nat → Option Nat) : Nat → Option Nat → List Nat
  | 0, _ => []
  | fuel + 1, c =>
    match f c with
    | none => []
    | some m => m :: iterDown f fuel (some m)

/-- Sequence produced by exhaustively iterating `nextPeer(k,p,·)`. -/
def nextChain (td : TreeDescriptor) (k p fuel after : Nat) : List Nat :=
  iterUp (nextPeer td k p) fuel after

/-- Sequence produced by exhaustively iterating `prevPeer(k,p,·)` starting
from NONE. -/
def prevChain (td : TreeDescriptor) (k p : Nat) (fuel : Nat) (before : Option Nat) : List Nat :=
  iterDown (prevPeer td k p) fuel before

/-- Modelled from the spec: the two elimination kernels (spec section 3). -/
inductive Kernel where
  | PANEL
  | DOUBLE
deriving DecidableEq, Repr

/-- Modelled from the spec: whether domain `d` is eliminated at the first
global reduction level (spec section 4.3): every domain in a FLAT global tree
(one single level), the odd domains in a BINARY global tree; domino is only
compatible with those two shapes (spec section 3 invariant). -/
def firstGlobalLevel : TreeKind → Nat → Bool
  | TreeKind.FLAT, _ => true
  | TreeKind.BINARY, d => decide (d % 2 = 1)
  | _, _ => false

/-- Modelled from the spec: `kernelKind(step k, tile m)` (spec sections 4.3 and
4.4): DOUBLE exactly for the domino-overlapped elimination of a domain root at
the first global reduction level, PANEL for every other step; `none` outside
the valid domain. -/
def kernelKind (td : TreeDescriptor) (k m : Nat) : Option Kernel :=
  if m ≤ k ∨ td.rows ≤ m then none
  else if td.domino && decide ((m - k) % td.localSize = 0)
      && firstGlobalLevel td.globalKind ((m - k) / td.localSize) then some Kernel.DOUBLE
  else some Kernel.PANEL

/-- Modelled from the spec: the elimination of tile `m` at step `k` crosses the
local/global boundary at the first global reduction level: `m` is a domain root
(relative index divisible by `localSize`) and its domain is eliminated at the
first global level. -/
def CrossesFirstGlobalLevel (td : TreeDescriptor) (k m : Nat) : Prop :=
  (m - k) % td.localSize = 0 ∧
    firstGlobalLevel td.globalKind ((m - k) / td.localSize) = true

instance (td : TreeDescriptor) (k m : Nat) : Decidable (CrossesFirstGlobalLevel td k m) := by
  unfold CrossesFirstGlobalLevel; infer_instance

/-- The spec's example scenario (section 8): rows=8, one domain,
localKind=BINARY, localSize=8, globalKind=FLAT, domino=false. -/
def tdBin8 : TreeDescriptor :=
  { rows := 8, cols := 8, localKind := TreeKind.BINARY, globalKind := TreeKind.FLAT,
    localSize := 8, domino := false, roundRobin := false }

/-- A small valid descriptor with domino enabled: rows=4, two domains of
localSize=2, FLAT local and global trees. -/
def tdDomino4 : TreeDescriptor :=
  { rows := 4, cols := 4, localKind := TreeKind.FLAT, globalKind := TreeKind.FLAT,
    localSize := 2, domino := true, roundRobin := false }

/-- The `dplasma_enum_t` values consulted by the embedded wrappers.  Only the
identity of each value matters to the argument checks, so they are embedded as
an enumeration. -/
inductive DplasmaEnum where
  | noVec
  | vec
  | lower
  | upper
  | upperLower
  | maxNorm
  | oneNorm
  | infNorm
  | frobeniusNorm
  | nonUnit
  | unitDiag
  | noTrans
  | conjTrans
deriving DecidableEq, Fintype, Repr

/-- The fields of `parsec_tiled_matrix_t` consulted by the embedded wrappers:
the descriptor-type bitmask and the matrix/tile extents. -/
structure MatDesc where
  dtype : Nat
  m : Int
  n : Int
  mt : Int
  nt : Int
deriving DecidableEq, Repr

/-- Bit flag `parsec_matrix_block_cyclic_type` of the `dtype` bitmask.  The
header defining the numeric value is external to the sources; the checks only
rely on the two flags being distinct bits. -/
def parsec_matrix_block_cyclic_type : Nat := 1

/-- Bit flag `parsec_matrix_sym_block_cyclic_type` of the `dtype` bitmask. -/
def parsec_matrix_sym_block_cyclic_type : Nat := 2

/-- Embedded from src/src/zheev_wrapper.c, `dplasma_zheev_New`: first component
is the returned taskpool (`none` for NULL), second is the value stored in
`*info` on return. -/
def dplasma_zheev_New (jobz uplo : DplasmaEnum) : Option Unit × Int :=
  if jobz ≠ DplasmaEnum.noVec ∧ jobz ≠ DplasmaEnum.vec then (none, -1)
  else if uplo ≠ DplasmaEnum.lower ∧ uplo ≠ DplasmaEnum.upper then (none, -2)
  else if jobz = DplasmaEnum.vec then (none, -1)
  else if uplo = DplasmaEnum.lower then (some (), 0)
  else (none, -2)

/-- Embedded from src/src/zheev_wrapper.c, `dplasma_zheev`: validates its own
arguments, then builds the taskpool with `dplasma_zheev_New`; on NULL it
returns -101, otherwise it runs the taskpool and returns `info`. -/
def dplasma_zheev (jobz uplo : DplasmaEnum) : Int :=
  if jobz ≠ DplasmaEnum.noVec ∧ jobz ≠ DplasmaEnum.vec then -1
  else if uplo ≠ DplasmaEnum.lower ∧ uplo ≠ DplasmaEnum.upper then -2
  else
    match dplasma_zheev_New jobz uplo with
    | (some _, info) => info
    | (none, _) => -101

/-- The four legal norm selectors of the zlansy/zlantr wrappers. -/
def validNorm (norm : DplasmaEnum) : Prop :=
  norm = DplasmaEnum.maxNorm ∨ norm = DplasmaEnum.oneNorm ∨
    norm = DplasmaEnum.infNorm ∨ norm = DplasmaEnum.frobeniusNorm

instance (norm : DplasmaEnum) : Decidable (validNorm norm) := by
  unfold validNorm; infer_instance

/-- Embedded from src/src/zlansy_wrapper.c, `dplasma_zlansy_New`: `none` models
the NULL return on an invalid norm, uplo or descriptor type; `some ()` the
constructed taskpool. -/
def dplasma_zlansy_New (norm uplo : DplasmaEnum) (A : MatDesc) : Option Unit :=
  if norm ≠ DplasmaEnum.maxNorm ∧ norm ≠ DplasmaEnum.oneNorm ∧
      norm ≠ DplasmaEnum.infNorm ∧ norm ≠ DplasmaEnum.frobeniusNorm then none
  else if uplo ≠ DplasmaEnum.upper ∧ uplo ≠ DplasmaEnum.lower then none
  else if A.dtype &&& (parsec_matrix_block_cyclic_type |||
      parsec_matrix_sym_block_cyclic_type) = 0 then none
  else some ()

/-- Embedded from src/src/zlansy_wrapper.c, `dplasma_zlansy` (blocking
version).  First component is the returned double (-2., -3., -4., -5. error
codes; 0 stands for the externally computed `result`), second records whether a
taskpool was constructed and run. -/
def dplasma_zlansy (norm uplo : DplasmaEnum) (A : MatDesc) : Int × Bool :=
  if norm ≠ DplasmaEnum.maxNorm ∧ norm ≠ DplasmaEnum.oneNorm ∧
      norm ≠ DplasmaEnum.infNorm ∧ norm ≠ DplasmaEnum.frobeniusNorm then (-2, false)
  else if uplo ≠ DplasmaEnum.upper ∧ uplo ≠ DplasmaEnum.lower then (-3, false)
  else if A.dtype &&& (parsec_matrix_block_cyclic_type |||
      parsec_matrix_sym_block_cyclic_type) = 0 then (-4, false)
  else if A.m ≠ A.n then (-5, false)
  else
    match dplasma_zlansy_New norm uplo A with
    | some _ => (0, true)
    | none => (0, false)

/-- Embedded from src/src/zlantr_wrapper.c, `dplasma_zlantr_New`: `none` models
the NULL return on an invalid norm or descriptor type (uplo and diag are not
validated). -/
def dplasma_zlantr_New (norm : DplasmaEnum) (A : MatDesc) : Option Unit :=
  if norm ≠ DplasmaEnum.maxNorm ∧ norm ≠ DplasmaEnum.oneNorm ∧
      norm ≠ DplasmaEnum.infNorm ∧ norm ≠ DplasmaEnum.frobeniusNorm then none
  else if A.dtype &&& parsec_matrix_block_cyclic_type = 0 then none
  else some ()

/-- Embedded from src/src/zlantr_wrapper.c, `dplasma_zlantr` (blocking
version).  First component is the returned double (-2., -3. error codes; 0
stands for the externally computed `result`), second records whether a taskpool
was constructed and run. -/
def dplasma_zlantr (norm _uplo _diag : DplasmaEnum) (A : MatDesc) : Int × Bool :=
  if norm ≠ DplasmaEnum.maxNorm ∧ norm ≠ DplasmaEnum.oneNorm ∧
      norm ≠ DplasmaEnum.infNorm ∧ norm ≠ DplasmaEnum.frobeniusNorm then (-2, false)
  else if A.dtype &&& parsec_matrix_block_cyclic_type = 0 then (-3, false)
  else
    match dplasma_zlantr_New norm A with
    | some _ => (0, true)
    | none => (0, false)

/-- Embedded from src/src/map_wrapper.c, `dplasma_map_New`: `none` models the
NULL return on an invalid uplo. -/
def dplasma_map_New (uplo : DplasmaEnum) : Option Unit :=
  if uplo ≠ DplasmaEnum.upperLower ∧ uplo ≠ DplasmaEnum.upper ∧
      uplo ≠ DplasmaEnum.lower then none
  else some ()

/-- Embedded from src/src/map_wrapper.c, `dplasma_map` (blocking version):
returns -2 on an invalid uplo, otherwise builds the taskpool and, when it is
non-NULL, runs it and returns 0.  Second component records whether a taskpool
was constructed and run. -/
def dplasma_map (uplo : DplasmaEnum) : Int × Bool :=
  if uplo ≠ DplasmaEnum.upperLower ∧ uplo ≠ DplasmaEnum.upper ∧
      uplo ≠ DplasmaEnum.lower then (-2, false)
  else
    match dplasma_map_New uplo with
    | some _ => (0, true)
    | none => (0, false)

/-- Embedded from src/unnamed/part_000, `dplasma_zgesv_1d` (the default,
non-PARSEC_COMPOSITION branch): the external factorization
`dplasma_zgetrf_1d` is abstracted by the `info` it produces and the solve step
`dplasma_zgetrs` by a function on the right-hand side `B`.  Returns the final
`info` and the final state of `B`. -/
def dplasma_zgesv_1d (α : Type) (getrfInfo : Int) (B : α) (zgetrs : α → α) : Int × α :=
  if getrfInfo = 0 then (getrfInfo, zgetrs B) else (getrfInfo, B)

theorem lowBitAux_pos (fuel : Nat) : ∀ n, 1 ≤ n → n ≤ fuel → 1 ≤ lowBitAux fuel n := by
  induction fuel with
  | zero => intro n h1 h2; omega
  | succ f ih =>
    intro n h1 _
    rw [lowBitAux]
    have hn0 : ¬ n = 0 := by omega
    rw [if_neg hn0]
    by_cases hodd : n % 2 = 1
    · rw [if_pos hodd]
    · rw [if_neg hodd]
      have h2 : n % 2 = 0 := by omega
      have hge : 2 ≤ n := by omega
      have := ih (n / 2) (by omega) (by omega)
      omega

theorem lowBit_pos {n : Nat} (h : 1 ≤ n) : 1 ≤ lowBit n :=
  lowBitAux_pos n n h (Nat.le_refl n)

theorem greedyPivotAux_lt (fuel : Nat) : ∀ t j, 1 ≤ j → greedyPivotAux fuel t j < j := by
  induction fuel with
  | zero => intro t j h; simp [greedyPivotAux]; omega
  | succ f ih =>
    intro t j h
    rw [greedyPivotAux]
    by_cases ht : t ≤ 1
    · rw [if_pos ht]; omega
    · rw [if_neg ht]
      simp only
      by_cases hj : j < (t + 1) / 2
      · rw [if_pos hj]; exact ih ((t + 1) / 2) j h
      · rw [if_neg hj]; omega

theorem fibNum_pos : ∀ g, 1 ≤ fibNum g
  | 0 => Nat.le_refl 1
  | 1 => Nat.le_refl 1
  | g + 2 => by
    have := fibNum_pos g
    simp only [fibNum]
    omega

theorem fibPivotAux_lt (fuel : Nat) :
    ∀ start g j, 1 ≤ start → start ≤ j → fibPivotAux fuel start g j < j := by
  induction fuel with
  | zero => intro start g j h1 h2; simp [fibPivotAux]; omega
  | succ f ih =>
    intro start g j h1 h2
    rw [fibPivotAux]
    by_cases hin : j < start + fibNum g
    · rw [if_pos hin]
      by_cases heq : j = start
      · rw [if_pos heq]; omega
      · rw [if_neg heq]; omega
    · rw [if_neg hin]
      have hf := fibNum_pos g
      exact ih (start + fibNum g) (g + 1) j (by omega) (by omega)

theorem treePivot_lt (kind : TreeKind) (size j : Nat) (h : 1 ≤ j) :
    treePivot kind size j < j := by
  cases kind with
  | FLAT => simpa [treePivot]
  | BINARY =>
    simp only [treePivot]
    have := lowBit_pos h
    omega
  | GREEDY => exact greedyPivotAux_lt size size j h
  | FIBONACCI => exact fibPivotAux_lt j 1 0 j (Nat.le_refl 1) h

theorem pivotOf_bounds (td : TreeDescriptor) (hv : td.Valid) {k m : Nat}
    (hk : k < m) (hm : m < td.rows) :
    ∃ p, pivotOf td k m = some p ∧ k ≤ p ∧ p < m := by
  obtain ⟨hr, hL, -⟩ := hv
  have hguard : ¬ (m ≤ k ∨ td.rows ≤ m) := by omega
  rw [pivotOf, if_neg hguard]
  by_cases hj : (m - k) % td.localSize ≠ 0
  · rw [if_pos hj]
    refine ⟨_, rfl, Nat.le_add_right_of_le (Nat.le_add_right k _), ?_⟩
    have htp := treePivot_lt td.localKind
      (domSize td k ((m - k) / td.localSize)) ((m - k) % td.localSize)
      (Nat.one_le_iff_ne_zero.mpr hj)
    have hqs : (m - k) / td.localSize * td.localSize + (m - k) % td.localSize = m - k := by
      rw [Nat.mul_comm]; exact Nat.div_add_mod _ _
    omega
  · rw [if_neg hj]
    push_neg at hj
    have hdm := Nat.div_add_mod (m - k) td.localSize
    have hd : 1 ≤ (m - k) / td.localSize := by
      rcases Nat.eq_zero_or_pos ((m - k) / td.localSize) with h0 | h1
      · rw [h0] at hdm; omega
      · exact h1
    refine ⟨_, rfl, Nat.le_add_right k _, ?_⟩
    have htp := treePivot_lt td.globalKind (numDomains td k) ((m - k) / td.localSize) hd
    have h2 : treePivot td.globalKind (numDomains td k) ((m - k) / td.localSize) * td.localSize
        < (m - k) / td.localSize * td.localSize :=
      Nat.mul_lt_mul_of_lt_of_le htp (Nat.le_refl _) hL
    have h3 : (m - k) / td.localSize * td.localSize
        = td.localSize * ((m - k) / td.localSize) := Nat.mul_comm _ _
    omega

theorem pivotIter_reaches_root (td : TreeDescriptor) (hv : td.Valid) (k : Nat) :
    ∀ m, k < m → m < td.rows → ∃ n, n ≤ m - k ∧ pivotIter td k n m = some k := by
  intro m
  induction m using Nat.strong_induction_on with
  | _ m ih =>
    intro hk hm
    obtain ⟨p, hp, hkp, hpm⟩ := pivotOf_bounds td hv hk hm
    rcases Nat.eq_or_lt_of_le hkp with heq | hlt
    · refine ⟨1, by omega, ?_⟩
      simp [pivotIter, hp, ← heq]
    · obtain ⟨n, hn, hit⟩ := ih p hpm hlt (by omega)
      refine ⟨n + 1, by omega, ?_⟩
      simp [pivotIter, hp, hit]
theorem iterUp_skip (h : Nat) (t : List Nat) (ht : ∀ x ∈ t, h < x) :
    ∀ fuel a, h ≤ a →
      iterUp (fun b => (h :: t).find? (fun x => decide (b < x))) fuel a
        = iterUp (fun b => t.find? (fun x => decide (b < x))) fuel a := by
  intro fuel
  induction fuel with
  | zero => intro a _; rfl
  | succ f ih =>
    intro a ha
    have hskip : (h :: t).find? (fun x => decide (a < x)) = t.find? (fun x => decide (a < x)) := by
      rw [List.find?_cons]
      have hd : decide (a < h) = false := by simp; omega
      rw [hd]
    cases hfind : t.find? (fun x => decide (a < x)) with
    | none => simp only [iterUp, hskip, hfind]
    | some m =>
      have hm : m ∈ t := List.mem_of_find?_eq_some hfind
      have hhm := ht m hm
      simp only [iterUp, hskip, hfind]
      rw [ih m (by omega)]

theorem iterUp_eq (l : List Nat) (hl : List.Pairwise (· < ·) l) :
    ∀ fuel a, (∀ x ∈ l, a < x) → l.length ≤ fuel →
      iterUp (fun b => l.find? (fun x => decide (b < x))) fuel a = l := by
  induction l with
  | nil =>
    intro fuel a _ _
    cases fuel with
    | zero => rfl
    | succ f => rw [iterUp]; rfl
  | cons h t ih =>
    intro fuel a hmem hlen
    cases fuel with
    | zero => simp at hlen
    | succ f =>
      obtain ⟨hht, htt⟩ := List.pairwise_cons.mp hl
      have hfind : (h :: t).find? (fun x => decide (a < x)) = some h := by
        rw [List.find?_cons]
        have hd : decide (a < h) = true := by simp; exact hmem h (List.mem_cons_self h t)
        rw [hd]
      simp only [iterUp, hfind]
      rw [iterUp_skip h t hht f h (Nat.le_refl h)]
      rw [ih htt f h hht (by simpa using hlen)]

theorem iterDown_skip (h : Nat) (t : List Nat) (ht : ∀ x ∈ t, x < h) :
    ∀ fuel c, belowPred c h = false →
      iterDown (fun c2 => (h :: t).find? (belowPred c2)) fuel c
        = iterDown (fun c2 => t.find? (belowPred c2)) fuel c := by
  intro fuel
  induction fuel with
  | zero => intro c _; rfl
  | succ f ih =>
    intro c hc
    have hskip : (h :: t).find? (belowPred c) = t.find? (belowPred c) := by
      rw [List.find?_cons, hc]
    cases hfind : t.find? (belowPred c) with
    | none => simp only [iterDown, hskip, hfind]
    | some m =>
      have hm : m ∈ t := List.mem_of_find?_eq_some hfind
      have hmh := ht m hm
      have hfalse : belowPred (some m) h = false := by simp [belowPred]; omega
      simp only [iterDown, hskip, hfind]
      rw [ih (some m) hfalse]

theorem iterDown_eq (l : List Nat) (hl : List.Pairwise (· > ·) l) :
    ∀ fuel c, (∀ x ∈ l, belowPred c x = true) → l.length ≤ fuel →
      iterDown (fun c2 => l.find? (belowPred c2)) fuel c = l := by
  induction l with
  | nil =>
    intro fuel c _ _
    cases fuel with
    | zero => rfl
    | succ f => rw [iterDown]; rfl
  | cons h t ih =>
    intro fuel c hmem hlen
    cases fuel with
    | zero => simp at hlen
    | succ f =>
      obtain ⟨hht, htt⟩ := List.pairwise_cons.mp hl
      have hfind : (h :: t).find? (belowPred c) = some h := by
        rw [List.find?_cons, hmem h (List.mem_cons_self h t)]
      simp only [iterDown, hfind]
      have hfalse : belowPred (some h) h = false := by simp [belowPred]
      rw [iterDown_skip h t hht f (some h) hfalse]
      have hmem2 : ∀ x ∈ t, belowPred (some h) x = true := by
        intro x hx
        simp [belowPred]
        exact hht x hx
      rw [ih htt f (some h) hmem2 (by simpa using hlen)]

theorem pivotOf_some_range {td : TreeDescriptor} {k m p : Nat}
    (h : pivotOf td k m = some p) : k < m ∧ m < td.rows := by
  by_cases hg : m ≤ k ∨ td.rows ≤ m
  · rw [pivotOf, if_pos hg] at h; cases h
  · push_neg at hg; omega

theorem peers_sorted (td : TreeDescriptor) (k p : Nat) :
    List.Pairwise (· < ·) (peers td k p) :=
  List.Pairwise.filter _ (List.pairwise_lt_range td.rows)

theorem mem_peers_pos {td : TreeDescriptor} {k p x : Nat} (h : x ∈ peers td k p) : 0 < x := by
  have h2 := (List.mem_filter.mp h).2
  have h3 : pivotOf td k x = some p := of_decide_eq_true h2
  have := pivotOf_some_range h3
  omega

theorem peers_length_le (td : TreeDescriptor) (k p : Nat) :
    (peers td k p).length ≤ td.rows := by
  have h1 := List.length_filter_le (fun m => decide (pivotOf td k m = some p)) (List.range td.rows)
  simpa [peers] using h1

theorem nextChain_eq_peers (td : TreeDescriptor) (k p : Nat) :
    nextChain td k p td.rows 0 = peers td k p :=
  iterUp_eq (peers td k p) (peers_sorted td k p) td.rows 0
    (fun _ hx => mem_peers_pos hx) (peers_length_le td k p)

theorem prevChain_eq_peers_reverse (td : TreeDescriptor) (k p : Nat) :
    prevChain td k p td.rows none = (peers td k p).reverse :=
  iterDown_eq (peers td k p).reverse (List.pairwise_reverse.mpr (peers_sorted td k p))
    td.rows none (fun _ _ => rfl)
    (by simpa using peers_length_le td k p)

/-- C1: for every valid TreeDescriptor and every factorization step `k`, each
tile `m` with `k < m ≤ extent` has exactly one pivot given by `pivotOf(k,m)`
(the query returns exactly one tile, which lies in `[k, m)` — so each hop
strictly decreases and no cycle exists), and iterating `pivotOf` from any such
tile reaches the step's unique root tile `k` in finitely many hops (at most
`m - k`). -/
theorem pivotOf_forest_valid (td : TreeDescriptor) (hv : td.Valid) (k m : Nat)
    (hk : k < m) (hm : m ≤ extent td k) :
    (∃ p, pivotOf td k m = some p ∧ k ≤ p ∧ p < m) ∧
      (∃ n, n ≤ m - k ∧ pivotIter td k n m = some k) := by
  have hrows : 1 ≤ td.rows := hv.1
  have hm2 : m < td.rows := by
    unfold extent at hm
    omega
  exact ⟨pivotOf_bounds td hv hk hm2, pivotIter_reaches_root td hv k m hk hm2⟩

/-- Witness for `pivotOf_forest_valid` at the spec's example descriptor,
step 0, tile 3. -/
theorem pivotOf_forest_valid_witness :
    tdBin8.Valid ∧ 0 < 3 ∧ 3 ≤ extent tdBin8 0 ∧
      ((∃ p, pivotOf tdBin8 0 3 = some p ∧ 0 ≤ p ∧ p < 3) ∧
        (∃ n, n ≤ 3 - 0 ∧ pivotIter tdBin8 0 n 3 = some 0)) :=
  ⟨by decide, by decide, by decide,
    pivotOf_forest_valid tdBin8 (by decide) 0 3 (by decide) (by decide)⟩

/-- C2: for every valid TreeDescriptor and every pair `(k,p)`, the sequence
of tiles produced by exhaustively iterating `nextPeer(k,p,·)`, when reversed,
equals the sequence produced by exhaustively iterating `prevPeer(k,p,·)`
starting from NONE: `prevPeer` is the exact inverse traversal of `nextPeer`. -/
theorem prevPeer_inverse_of_nextPeer (td : TreeDescriptor) (hv : td.Valid) (k p : Nat) :
    (nextChain td k p td.rows 0).reverse = prevChain td k p td.rows none := by
  have _ := hv
  rw [nextChain_eq_peers, prevChain_eq_peers_reverse]

/-- Witness for `prevPeer_inverse_of_nextPeer` at the spec's example
descriptor, step 0, pivot 0. -/
theorem prevPeer_inverse_of_nextPeer_witness :
    tdBin8.Valid ∧
      (nextChain tdBin8 0 0 tdBin8.rows 0).reverse = prevChain tdBin8 0 0 tdBin8.rows none :=
  ⟨by decide, prevPeer_inverse_of_nextPeer tdBin8 (by decide) 0 0⟩

/-- C3: the spec's example scenario: rows=8, one domain, localKind=BINARY,
localSize=8, globalKind=FLAT, domino=false, step k=0: the seven pivots follow
the binary doubling pattern, every kernelKind is PANEL, and the maximum number
of pivotOf hops from any tile to tile 0 is 3. -/
theorem binary_example_scenario :
    pivotOf tdBin8 0 1 = some 0 ∧ pivotOf tdBin8 0 2 = some 0 ∧
      pivotOf tdBin8 0 3 = some 2 ∧ pivotOf tdBin8 0 4 = some 0 ∧
      pivotOf tdBin8 0 5 = some 4 ∧ pivotOf tdBin8 0 6 = some 4 ∧
      pivotOf tdBin8 0 7 = some 6 ∧
      (∀ m, m < 8 → 0 < m → kernelKind tdBin8 0 m = some Kernel.PANEL) ∧
      maxHops tdBin8 0 = 3 := by
  decide

/-- C5: for every valid TreeDescriptor, `pivotOf(k,m)` fails (returns `none`,
the OutOfRangeError) exactly when `m ≤ k` or `m` exceeds the tree's extent for
step `k`; for all in-range `(k,m)` it returns the unique pivot without
error. -/
theorem pivotOf_out_of_range (td : TreeDescriptor) (hv : td.Valid) (k m : Nat) :
    pivotOf td k m = none ↔ m ≤ k ∨ extent td k < m := by
  have hrows : 1 ≤ td.rows := hv.1
  unfold extent
  constructor
  · intro h
    by_contra hcon
    push_neg at hcon
    obtain ⟨h1, h2⟩ := hcon
    obtain ⟨q, hq, -, -⟩ := @pivotOf_bounds td hv k m (by omega) (by omega)
    rw [hq] at h
    cases h
  · intro h
    have hg : m ≤ k ∨ td.rows ≤ m := by omega
    rw [pivotOf, if_pos hg]

/-- Witness for `pivotOf_out_of_range` at the spec's example descriptor,
step 0, tile 9 (out of range). -/
theorem pivotOf_out_of_range_witness :
    tdBin8.Valid ∧ (pivotOf tdBin8 0 9 = none ↔ 9 ≤ 0 ∨ extent tdBin8 0 < 9) :=
  ⟨by decide, pivotOf_out_of_range tdBin8 (by decide) 0 9⟩

/-- C4: when the TreeDescriptor has domino=true, `kernelKind(k,m)` returns
DOUBLE for exactly those elimination steps that cross the local/global
boundary at the first global reduction level, and PANEL for every other
step. -/
theorem domino_kernel_marking (td : TreeDescriptor) (hv : td.Valid)
    (hd : td.domino = true) (k m : Nat) (hk : k < m) (hm : m ≤ extent td k) :
    (kernelKind td k m = some Kernel.DOUBLE ↔ CrossesFirstGlobalLevel td k m) ∧
      (kernelKind td k m = some Kernel.PANEL ↔ ¬ CrossesFirstGlobalLevel td k m) := by
  have hrows : 1 ≤ td.rows := hv.1
  have hguard : ¬ (m ≤ k ∨ td.rows ≤ m) := by
    unfold extent at hm
    omega
  rw [kernelKind, if_neg hguard]
  by_cases hc : CrossesFirstGlobalLevel td k m
  · obtain ⟨h1, h2⟩ := hc
    have hb : (td.domino && decide ((m - k) % td.localSize = 0)
        && firstGlobalLevel td.globalKind ((m - k) / td.localSize)) = true := by
      simp [hd, h1, h2]
    rw [if_pos hb]
    refine ⟨?_, ?_⟩
    · simp [CrossesFirstGlobalLevel, h1, h2]
    · simp [CrossesFirstGlobalLevel, h1, h2]
  · have hb : (td.domino && decide ((m - k) % td.localSize = 0)
        && firstGlobalLevel td.globalKind ((m - k) / td.localSize)) = false := by
      by_cases hmod : (m - k) % td.localSize = 0
      · have h2 : firstGlobalLevel td.globalKind ((m - k) / td.localSize) = false := by
          cases hfg : firstGlobalLevel td.globalKind ((m - k) / td.localSize) with
          | false => rfl
          | true => exact absurd ⟨hmod, hfg⟩ hc
        simp [hd, hmod, h2]
      · simp [hd, hmod]
    rw [if_neg (by simp [hb])]
    refine ⟨?_, ?_⟩
    · simp [hc]
    · simp [hc]

/-- Witness for `domino_kernel_marking` at a domino descriptor with two FLAT
domains of size 2, step 0, tile 2 (the domain-1 root, eliminated at the first
global level). -/
theorem domino_kernel_marking_witness :
    tdDomino4.Valid ∧ tdDomino4.domino = true ∧ 0 < 2 ∧ 2 ≤ extent tdDomino4 0 ∧
      ((kernelKind tdDomino4 0 2 = some Kernel.DOUBLE ↔ CrossesFirstGlobalLevel tdDomino4 0 2) ∧
        (kernelKind tdDomino4 0 2 = some Kernel.PANEL ↔ ¬ CrossesFirstGlobalLevel tdDomino4 0 2)) :=
  ⟨by decide, by decide, by decide, by decide,
    domino_kernel_marking tdDomino4 (by decide) (by decide) 0 2 (by decide) (by decide)⟩

theorem validNorm_not_alt {norm : DplasmaEnum} (h : validNorm norm) :
    ¬ (norm ≠ DplasmaEnum.maxNorm ∧ norm ≠ DplasmaEnum.oneNorm ∧
        norm ≠ DplasmaEnum.infNorm ∧ norm ≠ DplasmaEnum.frobeniusNorm) := by
  unfold validNorm at h
  tauto

theorem not_validNorm_alt {norm : DplasmaEnum} (h : ¬ validNorm norm) :
    norm ≠ DplasmaEnum.maxNorm ∧ norm ≠ DplasmaEnum.oneNorm ∧
      norm ≠ DplasmaEnum.infNorm ∧ norm ≠ DplasmaEnum.frobeniusNorm := by
  unfold validNorm at h
  tauto

/-- C6: every validated entry point, on invalid arguments, reports the error
for the earliest-checked parameter in declaration order and creates no partial
state: `dplasma_zheev_New` reports jobz (-1) before uplo (-2);
`dplasma_zlansy` reports norm (-2.) before uplo (-3.) before descriptor type
(-4.) before non-squareness (-5.); and every error return carries no
constructed taskpool. -/
theorem wrappers_report_first_invalid_param :
    (∀ jobz uplo : DplasmaEnum, jobz ≠ DplasmaEnum.noVec ∧ jobz ≠ DplasmaEnum.vec →
        dplasma_zheev_New jobz uplo = (none, -1)) ∧
    (∀ jobz uplo : DplasmaEnum, (jobz = DplasmaEnum.noVec ∨ jobz = DplasmaEnum.vec) →
        uplo ≠ DplasmaEnum.lower ∧ uplo ≠ DplasmaEnum.upper →
        dplasma_zheev_New jobz uplo = (none, -2)) ∧
    (∀ (norm uplo : DplasmaEnum) (A : MatDesc), ¬ validNorm norm →
        dplasma_zlansy norm uplo A = (-2, false)) ∧
    (∀ (norm uplo : DplasmaEnum) (A : MatDesc), validNorm norm →
        uplo ≠ DplasmaEnum.upper ∧ uplo ≠ DplasmaEnum.lower →
        dplasma_zlansy norm uplo A = (-3, false)) ∧
    (∀ (norm uplo : DplasmaEnum) (A : MatDesc), validNorm norm →
        (uplo = DplasmaEnum.upper ∨ uplo = DplasmaEnum.lower) →
        A.dtype &&& (parsec_matrix_block_cyclic_type |||
          parsec_matrix_sym_block_cyclic_type) = 0 →
        dplasma_zlansy norm uplo A = (-4, false)) ∧
    (∀ (norm uplo : DplasmaEnum) (A : MatDesc), validNorm norm →
        (uplo = DplasmaEnum.upper ∨ uplo = DplasmaEnum.lower) →
        A.dtype &&& (parsec_matrix_block_cyclic_type |||
          parsec_matrix_sym_block_cyclic_type) ≠ 0 →
        A.m ≠ A.n →
        dplasma_zlansy norm uplo A = (-5, false)) ∧
    (∀ jobz uplo : DplasmaEnum, (dplasma_zheev_New jobz uplo).2 < 0 →
        (dplasma_zheev_New jobz uplo).1 = none) ∧
    (∀ (norm uplo : DplasmaEnum) (A : MatDesc), (dplasma_zlansy norm uplo A).1 < 0 →
        (dplasma_zlansy norm uplo A).2 = false) := by
  refine ⟨by decide, by decide, ?_, ?_, ?_, ?_, by decide, ?_⟩
  · intro norm uplo A hn
    unfold dplasma_zlansy
    rw [if_pos (not_validNorm_alt hn)]
  · intro norm uplo A hn hu
    unfold dplasma_zlansy
    rw [if_neg (validNorm_not_alt hn), if_pos hu]
  · intro norm uplo A hn hu hd
    unfold dplasma_zlansy
    rw [if_neg (validNorm_not_alt hn), if_neg (by tauto), if_pos hd]
  · intro norm uplo A hn hu hd hmn
    unfold dplasma_zlansy
    rw [if_neg (validNorm_not_alt hn), if_neg (by tauto), if_neg hd, if_pos hmn]
  · intro norm uplo A
    unfold dplasma_zlansy
    split
    · intro _; rfl
    · split
      · intro _; rfl
      · split
        · intro _; rfl
        · split
          · intro _; rfl
          · split
            · intro h; simp at h
            · intro h; simp at h

/-- Witness for `wrappers_report_first_invalid_param`: the invalid norm
selector `vec` makes the blocking zlansy report -2. before looking at the
(also invalid) descriptor type, with no taskpool constructed. -/
theorem wrappers_report_first_invalid_param_witness :
    ¬ validNorm DplasmaEnum.vec ∧
      dplasma_zlansy DplasmaEnum.vec DplasmaEnum.upper ⟨0, 2, 3, 1, 1⟩ = (-2, false) :=
  ⟨by decide,
    wrappers_report_first_invalid_param.2.2.1 DplasmaEnum.vec DplasmaEnum.upper
      ⟨0, 2, 3, 1, 1⟩ (by decide)⟩

/-- C7: every error is a synchronous return value and no failure is silently
swallowed: `dplasma_map` returns 0 exactly when the whole operation (taskpool
construction and run) succeeded, and `dplasma_zlantr` returns a non-negative
value (a valid norm) exactly when the taskpool was created and run; otherwise
both return a negative error code. -/
theorem errors_synchronous_return :
    (∀ uplo : DplasmaEnum,
        (dplasma_map uplo).1 = 0 ↔ (dplasma_map uplo).2 = true) ∧
    (∀ (norm uplo diag : DplasmaEnum) (A : MatDesc),
        0 ≤ (dplasma_zlantr norm uplo diag A).1 ↔
          (dplasma_zlantr norm uplo diag A).2 = true) := by
  refine ⟨by decide, ?_⟩
  intro norm uplo diag A
  unfold dplasma_zlantr
  by_cases h1 : (norm ≠ DplasmaEnum.maxNorm ∧ norm ≠ DplasmaEnum.oneNorm ∧
      norm ≠ DplasmaEnum.infNorm ∧ norm ≠ DplasmaEnum.frobeniusNorm)
  · rw [if_pos h1]
    norm_num
  · rw [if_neg h1]
    by_cases h2 : A.dtype &&& parsec_matrix_block_cyclic_type = 0
    · rw [if_pos h2]
      norm_num
    · rw [if_neg h2]
      have hnew : dplasma_zlantr_New norm A = some () := by
        unfold dplasma_zlantr_New
        rw [if_neg h1, if_neg h2]
      rw [hnew]
      norm_num

/-- C8: `dplasma_zheev_New` returns a non-NULL taskpool if and only if
jobz = dplasmaNoVec and uplo = dplasmaLower; every other combination —
including the documented-legal jobz = dplasmaVec and uplo = dplasmaUpper —
returns NULL with a negative `*info` (-1 for the jobz branch, -2 for the uplo
branch), and `dplasma_zheev` then returns -101 when construction failed after
its own argument checks passed. -/
theorem zheev_New_noVec_lower_only :
    (∀ jobz uplo : DplasmaEnum,
        ((dplasma_zheev_New jobz uplo).1).isSome = true ↔
          jobz = DplasmaEnum.noVec ∧ uplo = DplasmaEnum.lower) ∧
    dplasma_zheev_New DplasmaEnum.vec DplasmaEnum.lower = (none, -1) ∧
    dplasma_zheev_New DplasmaEnum.vec DplasmaEnum.upper = (none, -1) ∧
    dplasma_zheev_New DplasmaEnum.noVec DplasmaEnum.upper = (none, -2) ∧
    (∀ jobz uplo : DplasmaEnum,
        (jobz = DplasmaEnum.noVec ∨ jobz = DplasmaEnum.vec) →
        (uplo = DplasmaEnum.lower ∨ uplo = DplasmaEnum.upper) →
        ¬ (jobz = DplasmaEnum.noVec ∧ uplo = DplasmaEnum.lower) →
        dplasma_zheev jobz uplo = -101) := by
  decide

/-- Witness for `zheev_New_noVec_lower_only`: the documented-legal request
jobz = dplasmaVec and uplo = dplasmaLower passes the blocking wrapper's own
checks but construction fails and -101 is returned. -/
theorem zheev_New_noVec_lower_only_witness :
    (DplasmaEnum.vec = DplasmaEnum.noVec ∨ DplasmaEnum.vec = DplasmaEnum.vec) ∧
      (DplasmaEnum.lower = DplasmaEnum.lower ∨ DplasmaEnum.lower = DplasmaEnum.upper) ∧
      ¬ (DplasmaEnum.vec = DplasmaEnum.noVec ∧ DplasmaEnum.lower = DplasmaEnum.lower) ∧
      dplasma_zheev DplasmaEnum.vec DplasmaEnum.lower = -101 :=
  ⟨by decide, by decide, by decide,
    zheev_New_noVec_lower_only.2.2.2.2 DplasmaEnum.vec DplasmaEnum.lower
      (by decide) (by decide) (by decide)⟩

/-- C9: the blocking wrapper `dplasma_zlansy` and the constructor
`dplasma_zlansy_New` enforce different preconditions on the same input: a
non-square matrix that passes the norm, uplo and descriptor-type checks is
rejected by the blocking wrapper with -5. before any construction, while
`dplasma_zlansy_New` accepts the very same matrix and returns a non-NULL
taskpool. -/
theorem zlansy_blocking_stricter_than_New
    (norm uplo : DplasmaEnum) (A : MatDesc)
    (hn : validNorm norm)
    (hu : uplo = DplasmaEnum.upper ∨ uplo = DplasmaEnum.lower)
    (hd : A.dtype &&& (parsec_matrix_block_cyclic_type |||
      parsec_matrix_sym_block_cyclic_type) ≠ 0)
    (hmn : A.m ≠ A.n) :
    dplasma_zlansy norm uplo A = (-5, false) ∧
      dplasma_zlansy_New norm uplo A = some () := by
  constructor
  · unfold dplasma_zlansy
    rw [if_neg (validNorm_not_alt hn), if_neg (by tauto), if_neg hd, if_pos hmn]
  · unfold dplasma_zlansy_New
    rw [if_neg (validNorm_not_alt hn), if_neg (by tauto), if_neg hd]

/-- Witness for `zlansy_blocking_stricter_than_New` at a concrete non-square
block-cyclic descriptor with norm = dplasmaMaxNorm, uplo = dplasmaUpper. -/
theorem zlansy_blocking_stricter_than_New_witness :
    validNorm DplasmaEnum.maxNorm ∧
      (DplasmaEnum.upper = DplasmaEnum.upper ∨ DplasmaEnum.upper = DplasmaEnum.lower) ∧
      (MatDesc.dtype ⟨1, 2, 3, 1, 1⟩ &&& (parsec_matrix_block_cyclic_type |||
        parsec_matrix_sym_block_cyclic_type) ≠ 0) ∧
      MatDesc.m ⟨1, 2, 3, 1, 1⟩ ≠ MatDesc.n ⟨1, 2, 3, 1, 1⟩ ∧
      (dplasma_zlansy DplasmaEnum.maxNorm DplasmaEnum.upper ⟨1, 2, 3, 1, 1⟩ = (-5, false) ∧
        dplasma_zlansy_New DplasmaEnum.maxNorm DplasmaEnum.upper ⟨1, 2, 3, 1, 1⟩ = some ()) :=
  ⟨by decide, by decide, by decide, by decide,
    zlansy_blocking_stricter_than_New DplasmaEnum.maxNorm DplasmaEnum.upper
      ⟨1, 2, 3, 1, 1⟩ (by decide) (by decide) (by decide) (by decide)⟩

/-- C10: `dplasma_zgesv_1d` always returns the info value produced by the
factorization `dplasma_zgetrf_1d`, and applies the solve step `dplasma_zgetrs`
to B if and only if that info equals 0; when the factorization reports failure
(info ≠ 0), B is left untouched. -/
theorem zgesv_info_propagation (α : Type) (info : Int) (B : α) (solve : α → α) :
    (dplasma_zgesv_1d α info B solve).1 = info ∧
      (info = 0 → (dplasma_zgesv_1d α info B solve).2 = solve B) ∧
      (info ≠ 0 → (dplasma_zgesv_1d α info B solve).2 = B) := by
  unfold dplasma_zgesv_1d
  by_cases h : info = 0
  · rw [if_pos h]
    exact ⟨rfl, fun _ => rfl, fun hc => absurd h hc⟩
  · rw [if_neg h]
    exact ⟨rfl, fun hc => absurd hc h, fun _ => rfl⟩

/-- Witness for `zgesv_info_propagation`: a failed factorization (info = 1)
leaves the right-hand side untouched. -/
theorem zgesv_info_propagation_witness :
    (1 : Int) ≠ 0 ∧ (dplasma_zgesv_1d Nat 1 0 Nat.succ).2 = 0 :=
  ⟨by decide, (zgesv_info_propagation Nat 1 0 Nat.succ).2.2 (by decide)⟩
